import Mathlib

/-!
Shallow embedding of `onnxruntime/core/providers/qnn/builder/onnx_ctx_model_helper.cc`
(QNN EPContext cache-node reader/writer) and proofs about its specification.

Modelling conventions:
* ONNX graph nodes are records carrying a name, an op type and an ordered
  attribute list (the attribute bag of the host IR).
* Binary blobs and file contents are `String`s (C++ passes `char*` buffers and
  stores the payload in a `std::string` attribute, so bytes-as-string is the
  faithful representation).
* The filesystem is a parameter `fs : String → Option String` (path to file
  contents when the path names a regular readable file), and all filesystem
  touches performed by the code are recorded in an explicit event trace.
* The QNN backend (`QnnBackendManager::LoadCachedQnnContextFromBuffer`) is an
  opaque collaborator: it is a parameter returning a `Status`, and every call
  to it is recorded with the exact buffer bytes handed over.
* Paths are modelled with POSIX semantics (the `#else` branch of the source's
  `#ifdef _WIN32`).
-/

deriving instance DecidableEq for Except

namespace OnnxCtx

/-- Attribute values stored on a graph node: the source uses int64 and string
attributes (bool attributes are stored as int64, payload bytes as string). -/
inductive AttrValue where
  | int (v : Int)
  | str (v : String)
deriving DecidableEq, Repr

/-- A graph node: name, op type, and its ordered attribute bag. -/
structure Node where
  name : String
  opType : String
  attrs : List (String × AttrValue)
deriving DecidableEq, Repr

/-- Default node used when the source dereferences `*graph.Nodes().begin()`
after having checked that exactly one node exists. -/
def defNode : Node := ⟨"", "", []⟩

/-- Attribute key and op-type constants used by the source
(`EPCONTEXT_OP`, `MAIN_CONTEXT`, ... from the QNN EPContext schema). -/
def EPCONTEXT_OP : String := "EPContext"

/-- Attribute key for the main-context marker. -/
def MAIN_CONTEXT : String := "main_context"

/-- Attribute key for the embed-mode flag. -/
def EMBED_MODE : String := "embed_mode"

/-- Attribute key for the payload (inline bytes or external file name). -/
def EP_CACHE_CONTEXT : String := "ep_cache_context"

/-- Attribute key for the spill-fill sizing hint. -/
def MAX_SIZE : String := "max_size"

/-- Attribute key for the SDK build version. -/
def EP_SDK_VER : String := "ep_sdk_version"

/-- Attribute key for the originating partition name. -/
def PARTITION_NAME : String := "partition_name"

/-- Attribute key for the provenance tag. -/
def SOURCE : String := "source"

/-- Provenance tag constant `kQnnExecutionProvider`. -/
def kQnnExecutionProvider : String := "QNNExecutionProvider"

/-- Look up an attribute by key in a node's attribute bag (first match). -/
def findAttr (n : Node) (key : String) : Option AttrValue :=
  (n.attrs.find? (fun kv => kv.1 == key)).map (fun kv => kv.2)

/-- `NodeAttrHelper::Get(key, int64_default)`: the attribute's int value, or
the default when the attribute is absent or has another type. -/
def getIntAttr (n : Node) (key : String) (dflt : Int) : Int :=
  match findAttr n key with
  | some (.int v) => v
  | _ => dflt

/-- `NodeAttrHelper::Get(key, string_default)`: the attribute's string value,
or the default when the attribute is absent or has another type. -/
def getStrAttr (n : Node) (key : String) (dflt : String) : String :=
  match findAttr n key with
  | some (.int _) => dflt
  | some (.str v) => v
  | none => dflt

/-- `NodeAttrHelper::Get(key, bool_default)`: bool attributes are stored as
int64; nonzero means true. -/
def getBoolAttr (n : Node) (key : String) (dflt : Bool) : Bool :=
  match findAttr n key with
  | some (.int v) => v != 0
  | _ => dflt

/-- Modelled from the spec: `qnn::utils::GetLowercaseString` lives in
`qnn_utils.cc`, which is not under `src/`; per the spec's case-insensitive
provenance recognition it lowercases each character (ASCII). -/
def getLowercaseString (s : String) : String := ⟨s.data.map Char.toLower⟩

/-- `GraphHasEpContextNode`: the graph holds a QNN context cache binary iff it
has a node with `EPContext` op type whose `source` attribute, lowercased, is
"qnn" or "qnnexecutionprovider". -/
def GraphHasEpContextNode (nodes : List Node) : Bool :=
  nodes.any (fun node =>
    EPCONTEXT_OP == node.opType &&
      (let cache_source := getLowercaseString (getStrAttr node SOURCE "")
       cache_source == "qnnexecutionprovider" || cache_source == "qnn"))

/-- ORT status codes observed in this file: `Status::OK()`, the generic code
produced by `ORT_RETURN_IF` / `ORT_RETURN_IF_NOT` (FAIL), and the explicit
`ORT_MAKE_STATUS(ONNXRUNTIME, INVALID_GRAPH, ...)` classification. -/
inductive ErrCode where
  | OK
  | FAIL
  | INVALID_GRAPH
deriving DecidableEq, Repr

/-- An ORT `Status`: a code plus its error message. -/
structure Status where
  code : ErrCode
  msg : String
deriving DecidableEq, Repr

/-- `Status::OK()`. -/
def Status.ok : Status := ⟨.OK, ""⟩

/-- `Status::IsOK()`. -/
def Status.isOK (s : Status) : Bool := s.code == .OK

/-- Filesystem touches performed by the code, recorded as an event trace. -/
inductive FsEvent where
  | isRegularFile (path : String)
  | openRead (path : String)
  | readFile (path : String)
  | writeFile (path : String) (contents : String)
deriving DecidableEq, Repr

/-- Outcome of a load entry point: the returned status, the filesystem event
trace, and every backend call `(buffer bytes, node name, max_spill_fill_size)`
made through `LoadCachedQnnContextFromBuffer`. -/
structure LoadOutcome where
  status : Status
  fsEvents : List FsEvent
  backendCalls : List (String × String × Int)
deriving DecidableEq, Repr

/-- Does `pat` match `l` position by position from the head (`pat` may be
shorter than `l`)? -/
def subMatch : List Char → List Char → Bool
  | [], _ => true
  | _ :: _, [] => false
  | p :: ps, c :: cs => p == c && subMatch ps cs

/-- `std::string::find(pat, 0) != npos`: does `pat` occur as a contiguous
run anywhere in `l`? -/
def hasSub (pat : List Char) : List Char → Bool
  | [] => subMatch pat []
  | c :: cs => subMatch pat (c :: cs) || hasSub pat cs

/-- `std::filesystem::path(p).parent_path()` for POSIX paths: the string
before the last separator ("/" when only the root separator remains, ""
when there is none). -/
def parentPath (p : String) : String :=
  match p.data.reverse.dropWhile (fun c => c ≠ '/') with
  | [] => ""
  | ['/'] => "/"
  | _ :: rest => ⟨rest.reverse⟩

/-- `std::filesystem::path::append` with a relative right operand: insert a
separator unless the left side is empty or already ends with one. -/
def pathAppend (a b : String) : String :=
  if a = "" then b
  else if a.data.getLast? = some '/' then a ++ b
  else a ++ "/" ++ b

/-- `std::filesystem::path(p).filename()` for POSIX paths: the component
after the last separator. -/
def pathFilename (p : String) : String :=
  ⟨(p.data.reverse.takeWhile (fun c => c ≠ '/')).reverse⟩

/-- Loop body of `GetMainContextNode`: for each filtered graph require exactly
one node, require it to be an `EPContext` node, and collect the positions
whose `main_context` attribute (default 0) equals 1. -/
def getMainContextLoop : List (List Node) → Nat → List Nat → Status × List Nat
  | [], _, acc => (Status.ok, acc)
  | g :: rest, i, acc =>
    if g.length ≠ 1 then
      (⟨.FAIL, "One filtered graph should has only one EPContext node!"⟩, acc)
    else
      let ep_context_node := g.headD defNode
      if ¬ (EPCONTEXT_OP == ep_context_node.opType) then
        (⟨.FAIL, "Should only filter in the EPContext node."⟩, acc)
      else
        let is_main_context := getIntAttr ep_context_node MAIN_CONTEXT 0
        getMainContextLoop rest (i + 1) (if is_main_context == 1 then acc ++ [i] else acc)

/-- `GetMainContextNode`: scan the filtered graphs for `EPContext` nodes with
`main_context = 1` and return their positions; fail when none is found. -/
def GetMainContextNode (graphs : List (List Node)) : Status × List Nat :=
  match getMainContextLoop graphs 0 [] with
  | (st, acc) =>
    if st.isOK then
      if acc.length < 1 then
        (⟨.FAIL, "Failed to find the EPContext node with main_context=1"⟩, acc)
      else (Status.ok, acc)
    else (st, acc)

/-- `GetEpContextFromMainNode` (POSIX branch): in embed mode hand the inline
`ep_cache_context` bytes to the backend with no filesystem access; otherwise
validate the external reference (non-empty, not absolute, no ".." anywhere,
purely textually), join it to the model file's directory, require a regular
non-empty file, read it, and hand the contents to the backend. -/
def GetEpContextFromMainNode (main_context_node : Node) (ctx_onnx_model_path : String)
    (fs : String → Option String) (backend : String → Status)
    (max_spill_fill_size : Int) : LoadOutcome :=
  if ¬ (EPCONTEXT_OP == main_context_node.opType) then
    ⟨⟨.FAIL, "Should only filter in the EPContext node."⟩, [], []⟩
  else
    let is_embed_mode := getBoolAttr main_context_node EMBED_MODE true
    if is_embed_mode then
      let context_binary := getStrAttr main_context_node EP_CACHE_CONTEXT ""
      ⟨backend context_binary, [],
        [(context_binary, main_context_node.name, max_spill_fill_size)]⟩
    else
      let folder_path := parentPath ctx_onnx_model_path
      let external_name := getStrAttr main_context_node EP_CACHE_CONTEXT ""
      if external_name = "" then
        ⟨⟨.FAIL, "The file path in ep_cache_context should not be empty."⟩, [], []⟩
      else if external_name.data.headD ' ' == '/' then
        ⟨⟨.FAIL, "External mode should set ep_cache_context field with a relative path, but it is an absolute path: "
            ++ external_name⟩, [], []⟩
      else if hasSub ['.', '.'] external_name.data then
        ⟨⟨.INVALID_GRAPH, "The file path in ep_cache_context field has '..'. It's not allowed to point outside the directory."⟩,
          [], []⟩
      else
        let context_binary_path := pathAppend folder_path external_name
        match fs context_binary_path with
        | none =>
          ⟨⟨.INVALID_GRAPH, "The file path in ep_cache_context does not exist or is not accessible."⟩,
            [.isRegularFile context_binary_path], []⟩
        | some contents =>
          if contents.length = 0 then
            ⟨⟨.FAIL, "Empty cache file encountered."⟩,
              [.isRegularFile context_binary_path, .openRead context_binary_path], []⟩
          else
            ⟨backend contents,
              [.isRegularFile context_binary_path, .openRead context_binary_path,
               .readFile context_binary_path],
              [(contents, main_context_node.name, max_spill_fill_size)]⟩

/-- `LoadQnnCtxFromOnnxGraph`: require exactly one node in the filtered graph,
delegate to `GetEpContextFromMainNode`, and wrap any failure of the inner load
into the `INVALID_GRAPH` classification (the customer protocol). -/
def LoadQnnCtxFromOnnxGraph (graphNodes : List Node) (ctx_onnx_model_path : String)
    (fs : String → Option String) (backend : String → Status)
    (max_spill_fill_size : Int) : LoadOutcome :=
  if graphNodes.length ≠ 1 then
    ⟨⟨.FAIL, "One filtered graph should has only one EPContext node!"⟩, [], []⟩
  else
    let r := GetEpContextFromMainNode (graphNodes.headD defNode) ctx_onnx_model_path
      fs backend max_spill_fill_size
    if r.status.isOK then ⟨Status.ok, r.fsEvents, r.backendCalls⟩
    else ⟨⟨.INVALID_GRAPH, "Failed to load from EpContext model. " ++ r.status.msg⟩,
      r.fsEvents, r.backendCalls⟩

/-- The `max_size` attribute (default 0) of the single node of the filtered
graph selected by position `i` of `main_context_pos_list`, i.e. the sizing
value `TryGetMaxSpillFillSize` reads at loop iteration `i`. -/
def sizeAt (graphs : List (List Node)) (posList : List Nat) (i : Nat) : Int :=
  getIntAttr ((graphs.getD (posList.getD i 0) []).headD defNode) MAX_SIZE 0

/-- Scan loop of `TryGetMaxSpillFillSize`: walk the listed iteration indices
carrying the running maximum and its iteration index; a strictly larger
`max_size` updates both. Each visited graph must hold exactly one node. -/
def spillScan (graphs : List (List Node)) (posList : List Nat) :
    List Nat → Int → Nat → Except String (Int × Nat)
  | [], curMax, curIdx => .ok (curMax, curIdx)
  | i :: rest, curMax, curIdx =>
    if (graphs.getD (posList.getD i 0) []).length ≠ 1 then
      .error "One filtered graph should has only one EPContext node!"
    else
      let max_size := sizeAt graphs posList i
      if max_size > curMax then spillScan graphs posList rest max_size i
      else spillScan graphs posList rest curMax curIdx

/-- `TryGetMaxSpillFillSize`: scan iterations `0..total-1` for the maximal
`max_size` (running maximum starts at 0), then swap positions 0 and the
maximal iteration index of `main_context_pos_list` when the latter is not 0. -/
def TryGetMaxSpillFillSize (graphs : List (List Node)) (total : Nat)
    (posList : List Nat) : Except String (Int × List Nat) :=
  match spillScan graphs posList (List.range total) 0 0 with
  | .error e => .error e
  | .ok (max_spill_fill_size, max_size_index) =>
    if max_size_index ≠ 0 then
      let tmp := posList.getD 0 0
      .ok (max_spill_fill_size,
        (posList.set 0 (posList.getD max_size_index 0)).set max_size_index tmp)
    else .ok (max_spill_fill_size, posList)

/-- `std::string::find_last_of(".")`: index of the last occurrence of `c`. -/
def lastIndexOfChar (cs : List Char) (c : Char) : Option Nat :=
  match cs.reverse.findIdx? (fun x => x == c) with
  | some k => some (cs.length - 1 - k)
  | none => none

/-- `std::string::find_first_of(set)`: index of the first character that is a
member of `set`. -/
def firstIndexOfAny (cs : List Char) (set : List Char) : Option Nat :=
  cs.findIdx? (fun c => set.contains c)

/-- Strip the model path's extension: keep the part before the last "."
(`context_model_path.substr(0, pos)`), or the full path when no dot exists. -/
def stripModelExtension (context_model_path : String) : String :=
  match lastIndexOfChar context_model_path.data '.' with
  | some pos => ⟨context_model_path.data.take pos⟩
  | none => context_model_path

/-- Drop the backend tag from the partition name exactly as the source does:
find the first character belonging to the character set of
`kQnnExecutionProvider` and erase `strlen(kQnnExecutionProvider)` characters
from that position (`std::string::replace(pos, len, "")`, clamped). -/
def stripQnnTag (graph_name : String) : String :=
  match firstIndexOfAny graph_name.data kQnnExecutionProvider.data with
  | some pos =>
    ⟨graph_name.data.take pos ++ graph_name.data.drop (pos + kQnnExecutionProvider.length)⟩
  | none => graph_name

/-- External context binary path computed by the writer: model-path stem plus
the tag-stripped partition name plus ".bin". -/
def computeContextBinPath (context_model_path graph_name : String) : String :=
  stripModelExtension context_model_path ++ stripQnnTag graph_name ++ ".bin"

/-- `std::filesystem::path(context_bin_path).filename()`: the cache file name
stamped into the `ep_cache_context` attribute in external mode. -/
def computeContextCacheName (context_model_path graph_name : String) : String :=
  pathFilename (computeContextBinPath context_model_path graph_name)

/-- Main-node emission for external (non-embed) mode, including the
shared-context logic. `sharedName` models `SharedContext`'s shared ctx-bin
file name ("" = unset, matching the source's `.empty()` test).

Modelled from the spec: `SharedContext` (`shared_context.h`) is not under
`src/`; per the spec's `SharedCacheState` it is a single "current shared
external file name" with get / set / reset, threaded here as explicit state.

Returns the payload attributes of the main node, the file-write events
`(path, bytes)`, and the shared name after this invocation. -/
def emitMainExternal (buffer context_model_path graph_name : String)
    (max_spill_fill_buffer_size : Int) (share_ep_contexts stop_share_ep_contexts : Bool)
    (sharedName : String) :
    List (String × AttrValue) × List (String × String) × String :=
  let context_bin_path := computeContextBinPath context_model_path graph_name
  let context_cache_name := pathFilename context_bin_path
  let step :=
    if share_ep_contexts then
      if sharedName = "" then (context_bin_path, context_cache_name, context_cache_name)
      else
        let model_folder_path := parentPath context_bin_path
        (model_folder_path ++ "/" ++ sharedName, sharedName, sharedName)
    else (context_bin_path, context_cache_name, sharedName)
  let writes :=
    if ¬ share_ep_contexts ∨ (share_ep_contexts ∧ stop_share_ep_contexts) then
      [(step.1, buffer)]
    else []
  let sharedAfter := if share_ep_contexts ∧ stop_share_ep_contexts then "" else step.2.2
  ([(EP_CACHE_CONTEXT, .str step.2.1), (MAX_SIZE, .int max_spill_fill_buffer_size)],
    writes, sharedAfter)

/-- The attributes every emitted `EPContext` node receives after the
payload-specific ones: `embed_mode`, `ep_sdk_version`, `partition_name` and
`source`. -/
def commonAttrs (qnn_context_embed_mode : Bool) (sdk_build_version graph_name : String) :
    List (String × AttrValue) :=
  [(EMBED_MODE, .int (if qnn_context_embed_mode then 1 else 0)),
   (EP_SDK_VER, .str sdk_build_version),
   (PARTITION_NAME, .str graph_name),
   (SOURCE, .str kQnnExecutionProvider)]

/-- Loop of `CreateEPContextNodes`: for each fused node (in order) require its
QnnModel to exist, then emit one `EPContext` node. Index 0 receives the
payload (inline bytes in embed mode; external file name plus `max_size`
otherwise, with the file written according to the sharing flags); later
indices receive only `main_context = 0`. Every node then receives
`embed_mode`, `ep_sdk_version`, `partition_name` and `source`.

The construction of the node's input/output `NodeArg`s (`CreateNodeArgs`,
tensor shapes and element types) is outside the attribute/payload state this
development reasons about and is not modelled. -/
def createLoop (buffer sdk_build_version context_model_path : String)
    (qnn_context_embed_mode : Bool) (max_spill_fill_buffer_size : Int)
    (share_ep_contexts stop_share_ep_contexts : Bool) (qnnModels : List String) :
    List String → Nat → String → List Node → List (String × String) →
    Except String (List Node × List (String × String) × String)
  | [], _, sharedName, accNodes, accWrites => .ok (accNodes, accWrites, sharedName)
  | graph_name :: rest, index, sharedName, accNodes, accWrites =>
    if ¬ qnnModels.contains graph_name then
      .error (graph_name ++ " not exist in QnnModel table.")
    else
      let step :=
        if index == 0 then
          if qnn_context_embed_mode then
            ([(EP_CACHE_CONTEXT, AttrValue.str buffer)],
              ([] : List (String × String)), sharedName)
          else
            emitMainExternal buffer context_model_path graph_name
              max_spill_fill_buffer_size share_ep_contexts stop_share_ep_contexts sharedName
        else ([(MAIN_CONTEXT, AttrValue.int 0)], [], sharedName)
      let ep_node : Node :=
        ⟨graph_name, EPCONTEXT_OP,
          step.1 ++ commonAttrs qnn_context_embed_mode sdk_build_version graph_name⟩
      createLoop buffer sdk_build_version context_model_path qnn_context_embed_mode
        max_spill_fill_buffer_size share_ep_contexts stop_share_ep_contexts qnnModels
        rest (index + 1) step.2.2 (accNodes ++ [ep_node]) (accWrites ++ step.2.1)

/-- `CreateEPContextNodes`: emit one `EPContext` cache node per fused
partition name, writing the binary payload per the embed / sharing flags.
Returns the emitted nodes, the file writes performed, and the shared-context
file name state after the invocation. -/
def CreateEPContextNodes (names : List String) (buffer sdk_build_version : String)
    (qnnModels : List String) (context_model_path : String)
    (qnn_context_embed_mode : Bool) (max_spill_fill_buffer_size : Int)
    (share_ep_contexts stop_share_ep_contexts : Bool) (sharedName : String) :
    Except String (List Node × List (String × String) × String) :=
  createLoop buffer sdk_build_version context_model_path qnn_context_embed_mode
    max_spill_fill_buffer_size share_ep_contexts stop_share_ep_contexts qnnModels
    names 0 sharedName [] []

/-- One writer invocation of a sharing session: its fused partition names,
binary blob, SDK version, QnnModel table, output model path, sizing value and
final-invocation flag (`share_ep_contexts` is true throughout a session and
`qnn_context_embed_mode` is false, since sharing concerns the external file). -/
structure SessionIn where
  names : List String
  buffer : String
  sdkVer : String
  qnnModels : List String
  ctxModelPath : String
  maxSpill : Int
  stop : Bool
deriving DecidableEq, Repr

/-- Run a sequence of sharing-enabled, external-mode writer invocations,
threading the shared-context file name. Returns each invocation's emitted
nodes and file writes, plus the final shared name. -/
def runShareSession : String → List SessionIn →
    Except String (List (List Node × List (String × String)) × String)
  | st, [] => .ok ([], st)
  | st, inv :: rest =>
    match CreateEPContextNodes inv.names inv.buffer inv.sdkVer inv.qnnModels
      inv.ctxModelPath false inv.maxSpill true inv.stop st with
    | .error e => .error e
    | .ok (nodes, writes, st1) =>
      match runShareSession st1 rest with
      | .error e => .error e
      | .ok (outs, stF) => .ok ((nodes, writes) :: outs, stF)

/-- The node emitted for every partition at loop index ≥ 1: marked
`main_context = 0` and carrying no payload and no sizing attribute. -/
def mkNonMainNode (qnn_context_embed_mode : Bool) (sdk_build_version graph_name : String) :
    Node :=
  ⟨graph_name, EPCONTEXT_OP,
    (MAIN_CONTEXT, .int 0) :: commonAttrs qnn_context_embed_mode sdk_build_version graph_name⟩

/-- The reordering described by the claim's words for `TryGetMaxSpillFillSize`
(stated from the spec, for comparison with the source's swap): the selected
index `j` is moved into position 0 and all other entries keep their relative
order. -/
def selectMainSpec (posList : List Nat) (j : Nat) : List Nat :=
  posList.getD j 0 :: (posList.take j ++ posList.drop (j + 1))

/-- Three single-node filtered graphs with `max_size` values 5, 3, 20. -/
def c3Graphs : List (List Node) :=
  [[⟨"p0", EPCONTEXT_OP, [(MAX_SIZE, .int 5)]⟩],
   [⟨"p1", EPCONTEXT_OP, [(MAX_SIZE, .int 3)]⟩],
   [⟨"p2", EPCONTEXT_OP, [(MAX_SIZE, .int 20)]⟩]]

/-- Three single-node filtered graphs with `max_size` values 5, 20, 3
(the spec's own worked example). -/
def c3GraphsB : List (List Node) :=
  [[⟨"p0", EPCONTEXT_OP, [(MAX_SIZE, .int 5)]⟩],
   [⟨"p1", EPCONTEXT_OP, [(MAX_SIZE, .int 20)]⟩],
   [⟨"p2", EPCONTEXT_OP, [(MAX_SIZE, .int 3)]⟩]]

/-- An external-mode `EPContext` node whose `ep_cache_context` reference is
the empty string. -/
def c4Node : Node :=
  ⟨"n", EPCONTEXT_OP, [(EMBED_MODE, .int 0), (EP_CACHE_CONTEXT, .str "")]⟩

/-- An external-mode `EPContext` node referencing `model_part.bin`. -/
def c4NodeGood : Node :=
  ⟨"n", EPCONTEXT_OP, [(EMBED_MODE, .int 0), (EP_CACHE_CONTEXT, .str "model_part.bin")]⟩

/-- An `EPContext` node with no attributes at all. -/
def c5Node : Node := ⟨"n", EPCONTEXT_OP, []⟩

/-- An embed-mode `EPContext` node carrying inline payload bytes. -/
def c9Node : Node :=
  ⟨"n", EPCONTEXT_OP, [(EMBED_MODE, .int 1), (EP_CACHE_CONTEXT, .str "PAYLOAD")]⟩

/-- First invocation of a concrete three-invocation sharing session. -/
def c7Inv1 : SessionIn := ⟨["g0", "g1"], "B1", "v", ["g0", "g1"], "p1/m1.onnx", 4, false⟩

/-- Second invocation of a concrete three-invocation sharing session. -/
def c7Inv2 : SessionIn := ⟨["h0"], "B2", "v", ["h0"], "p2/m2.onnx", 5, false⟩

/-- Final invocation of a concrete three-invocation sharing session. -/
def c7Inv3 : SessionIn := ⟨["k0"], "B3", "v", ["k0"], "p3/m3.onnx", 6, true⟩

/-! Theorems. Helper lemmas first: a flattening of the writer loop and
evaluations of `emitMainExternal` under each sharing configuration. -/

/-- The writer loop at indices ≥ 1 emits exactly one non-main node per
remaining partition, performs no writes and leaves the shared name alone. -/
theorem createLoop_tail (buffer v path : String) (embed : Bool) (m : Int)
    (share stop : Bool) (models : List String) :
    ∀ (rest : List String) (idx : Nat) (st : String) (accN : List Node)
      (accW : List (String × String)),
      idx ≠ 0 →
      (∀ g ∈ rest, models.contains g = true) →
      createLoop buffer v path embed m share stop models rest idx st accN accW =
        .ok (accN ++ rest.map (mkNonMainNode embed v), accW, st) := by
  intro rest
  induction rest with
  | nil => intro idx st accN accW hidx hmem; simp [createLoop]
  | cons g gs ih =>
    intro idx st accN accW hidx hmem
    have hg : models.contains g = true := hmem g (by simp)
    have hidx0 : (idx == 0) = false := beq_eq_false_iff_ne.mpr hidx
    simp only [createLoop, hg, hidx0, not_true_eq_false, if_false, Bool.false_eq_true,
      if_neg (by simp : ¬ (true = false))]
    rw [ih (idx + 1) st _ _ (Nat.succ_ne_zero idx) (fun x hx => hmem x (by simp [hx]))]
    simp [mkNonMainNode, List.append_assoc]

/-- One writer invocation over partitions `n0 :: rest` whose QnnModels all
exist: the head node carries the payload attributes, every other node is a
non-main node, and the writes and shared-name state come from the main-node
emission. -/
theorem createEPContextNodes_cons (n0 : String) (rest : List String)
    (buffer v : String) (models : List String) (path : String) (embed : Bool)
    (m : Int) (share stop : Bool) (st : String)
    (h0 : models.contains n0 = true)
    (hrest : ∀ g ∈ rest, models.contains g = true) :
    CreateEPContextNodes (n0 :: rest) buffer v models path embed m share stop st =
      .ok
        (⟨n0, EPCONTEXT_OP,
          (if embed then [(EP_CACHE_CONTEXT, AttrValue.str buffer)]
           else (emitMainExternal buffer path n0 m share stop st).1) ++
            commonAttrs embed v n0⟩ :: rest.map (mkNonMainNode embed v),
         (if embed then [] else (emitMainExternal buffer path n0 m share stop st).2.1),
         (if embed then st else (emitMainExternal buffer path n0 m share stop st).2.2)) := by
  unfold CreateEPContextNodes
  cases embed with
  | true =>
    simp only [createLoop, h0, not_true_eq_false, if_false, ite_true, beq_self_eq_true]
    rw [createLoop_tail buffer v path true m share stop models rest 1 st _ _
      Nat.one_ne_zero hrest]
    simp
  | false =>
    simp only [createLoop, h0, not_true_eq_false, if_false, ite_true, ite_false,
      beq_self_eq_true]
    rw [createLoop_tail buffer v path false m share stop models rest 1 _ _ _
      Nat.one_ne_zero hrest]
    simp

/-- Main-node emission with sharing disabled: the computed cache name is
stamped, the file is written unconditionally, the shared name is untouched. -/
theorem emitMainExternal_noshare (b path n0 st : String) (m : Int) (stop : Bool) :
    emitMainExternal b path n0 m false stop st =
      ([(EP_CACHE_CONTEXT, .str (computeContextCacheName path n0)), (MAX_SIZE, .int m)],
       [(computeContextBinPath path n0, b)], st) := by
  simp [emitMainExternal, computeContextCacheName]

/-- Main-node emission with sharing enabled and no shared name recorded yet:
the computed cache name is stamped and recorded; the file is written only when
this is the final invocation, which also clears the shared name. -/
theorem emitMainExternal_share_fresh (b path n0 : String) (m : Int) (stop : Bool) :
    emitMainExternal b path n0 m true stop "" =
      ([(EP_CACHE_CONTEXT, .str (computeContextCacheName path n0)), (MAX_SIZE, .int m)],
       if stop then [(computeContextBinPath path n0, b)] else [],
       if stop then "" else computeContextCacheName path n0) := by
  cases stop <;> simp [emitMainExternal, computeContextCacheName]

/-- Main-node emission with sharing enabled and a shared name already
recorded: the recorded name overrides the computed one, the write target is
redirected into the same directory, and only the final invocation writes and
clears the shared name. -/
theorem emitMainExternal_share_existing (b path n0 s : String) (m : Int) (stop : Bool)
    (hs : s ≠ "") :
    emitMainExternal b path n0 m true stop s =
      ([(EP_CACHE_CONTEXT, .str s), (MAX_SIZE, .int m)],
       if stop then [(parentPath (computeContextBinPath path n0) ++ "/" ++ s, b)] else [],
       if stop then "" else s) := by
  cases stop <;> simp [emitMainExternal, hs]

/-- The cache file name computed for the `ep_cache_context` attribute always
ends in ".bin" and in particular is never the empty string. -/
theorem computeContextCacheName_ne_empty (path g : String) :
    computeContextCacheName path g ≠ "" := by
  unfold computeContextCacheName pathFilename computeContextBinPath
  intro h
  have hd := congrArg String.data h
  rw [String.data_append] at hd
  have hbin : (".bin" : String).data = ['.', 'b', 'i', 'n'] := rfl
  rw [hbin, List.reverse_append] at hd
  simp [List.takeWhile] at hd

/-- Claim C10: `GraphHasEpContextNode` returns true iff some node has op type
`EPContext` and a `source` attribute that, after lowercasing, equals "qnn" or
"qnnexecutionprovider"; recognition is case-insensitive ("QNN" and
"QnnExecutionProvider" lowercase to the recognized forms) and a node with a
missing source (which reads as "") or a foreign source is not recognized. -/
theorem c10_graph_detection (nodes : List Node) :
    (GraphHasEpContextNode nodes = true ↔
      ∃ n ∈ nodes, EPCONTEXT_OP = n.opType ∧
        (getLowercaseString (getStrAttr n SOURCE "") = "qnnexecutionprovider" ∨
         getLowercaseString (getStrAttr n SOURCE "") = "qnn")) ∧
    getLowercaseString "QNN" = "qnn" ∧
    getLowercaseString "QnnExecutionProvider" = "qnnexecutionprovider" ∧
    getLowercaseString "" = "" ∧ getLowercaseString "openvino" ≠ "qnn" := by
  refine ⟨?_, by decide, by decide, by decide, by decide⟩
  simp [GraphHasEpContextNode, List.any_eq_true, Bool.and_eq_true, Bool.or_eq_true]

/-- Claim C10 witness: the detection theorem instantiated at a concrete
recognized graph. -/
theorem c10_graph_detection_witness :
    ((GraphHasEpContextNode [⟨"n", "EPContext", [(SOURCE, .str "QNN")]⟩] = true ↔
      ∃ n ∈ [(⟨"n", "EPContext", [(SOURCE, .str "QNN")]⟩ : Node)], EPCONTEXT_OP = n.opType ∧
        (getLowercaseString (getStrAttr n SOURCE "") = "qnnexecutionprovider" ∨
         getLowercaseString (getStrAttr n SOURCE "") = "qnn")) ∧
    getLowercaseString "QNN" = "qnn" ∧
    getLowercaseString "QnnExecutionProvider" = "qnnexecutionprovider" ∧
    getLowercaseString "" = "" ∧ getLowercaseString "openvino" ≠ "qnn") :=
  c10_graph_detection [⟨"n", "EPContext", [(SOURCE, .str "QNN")]⟩]

/-- Claim C1 (code bug evidence): a writer invocation over two fused
partitions emits two cache nodes, of which zero carry `main_context = 1`
(the claim requires exactly one); the intended main node (index 0) carries no
`main_context` attribute at all, while the other is marked `main_context = 0`
and carries no payload. -/
theorem c1_writer_emits_no_main_marker :
    (CreateEPContextNodes ["g0", "g1"] "BLOB" "v1" ["g0", "g1"] "model.onnx" true 7
        false false "").toOption.map
      (fun r => (r.1.length,
        (r.1.filter (fun n => getIntAttr n MAIN_CONTEXT 0 == 1)).length,
        (r.1.filter (fun n => getIntAttr n MAIN_CONTEXT 0 == 0)).length,
        findAttr (r.1.headD defNode) MAIN_CONTEXT,
        findAttr ((r.1.getD 1 defNode)) EP_CACHE_CONTEXT)) =
      some (2, 0, 2, none, none) := by decide

/-- Claim C2 (code bug evidence): writing one partition with
`CreateEPContextNodes` and then selecting the main context node with
`GetMainContextNode` fails ("Failed to find the EPContext node with
main_context=1"), because the writer never stamps `main_context = 1`; the
round trip therefore never reaches `GetEpContextFromMainNode` and no buffer
is reproduced. -/
theorem c2_round_trip_fails :
    (CreateEPContextNodes ["g0"] "PAYLOAD" "v" ["g0"] "m.onnx" true 7 false false
        "").toOption.map
      (fun r => GetMainContextNode (r.1.map (fun n => [n]))) =
      some (⟨.FAIL, "Failed to find the EPContext node with main_context=1"⟩, []) := by decide

/-- Claim C3 counterexample: over sizing values `[5, 3, 20]` the source swaps
positions 0 and 2, producing `[2, 1, 0]`, whereas moving the maximal index to
position 0 while leaving the relative order of all other entries unchanged
(the claim's words, `selectMainSpec`) produces `[2, 0, 1]`. -/
theorem c3_counterexample :
    TryGetMaxSpillFillSize c3Graphs 3 [0, 1, 2] = .ok (20, [2, 1, 0]) ∧
    selectMainSpec [0, 1, 2] 2 = [2, 0, 1] ∧
    ¬ ([2, 1, 0] : List Nat) = [2, 0, 1] := by decide

/-- Claim C4 counterexample: the empty external reference is neither absolute
nor contains "..", so the claim says it is resolved by joining it to the model
directory; the source instead fails with the empty-path error and consults no
file (its filesystem trace is empty) even though every path exists in the
supplied filesystem. -/
theorem c4_counterexample :
    (("".data.headD ' ' == '/') = false) ∧
    hasSub ['.', '.'] "".data = false ∧
    GetEpContextFromMainNode c4Node "dir/m.onnx" (fun _ => some "XYZ")
        (fun _ => Status.ok) 0 =
      ⟨⟨.FAIL, "The file path in ep_cache_context should not be empty."⟩, [], []⟩ := by decide

/-- Claim C5 counterexample: a filtered graph with two nodes makes the load
fail, but `LoadQnnCtxFromOnnxGraph` surfaces this structural failure with the
generic `FAIL` code, not the `INVALID_GRAPH` classification the claim
requires for every load failure. -/
theorem c5_counterexample :
    (LoadQnnCtxFromOnnxGraph [c5Node, c5Node] "m.onnx" (fun _ => none)
        (fun _ => Status.ok) 0).status =
      ⟨.FAIL, "One filtered graph should has only one EPContext node!"⟩ ∧
    ¬ (ErrCode.FAIL = ErrCode.INVALID_GRAPH) := by decide

/-- Claim C8 counterexample: in embed mode the sole (main) emitted node
carries no `max_size` attribute, contradicting the claim that the main node
receives the caller-supplied sizing attribute regardless of embed mode. -/
theorem c8_counterexample :
    (CreateEPContextNodes ["g0"] "BLOB" "v" ["g0"] "m.onnx" true 42 false false
        "").toOption.map
      (fun r => (findAttr (r.1.headD defNode) MAX_SIZE, r.1.length)) =
      some (none, 1) := by decide

/-- Claim C9: for every main context node with `embed_mode = true`, loading
hands the node's inline `ep_cache_context` bytes directly to the backend with
an empty filesystem trace, and an embed-mode writer invocation stores the
buffer inline on the main node, performs no file writes and leaves the
shared-context state untouched. -/
theorem c9_embed_mode_no_filesystem (node : Node) (p : String)
    (fs : String → Option String) (backend : String → Status) (m : Int)
    (n0 : String) (rest : List String) (buffer v path st : String)
    (models : List String) (msz : Int) (share stop : Bool)
    (hop : node.opType = EPCONTEXT_OP)
    (hembed : getBoolAttr node EMBED_MODE true = true)
    (h0 : models.contains n0 = true)
    (hrest : ∀ g ∈ rest, models.contains g = true) :
    (GetEpContextFromMainNode node p fs backend m =
      ⟨backend (getStrAttr node EP_CACHE_CONTEXT ""), [],
        [(getStrAttr node EP_CACHE_CONTEXT "", node.name, m)]⟩) ∧
    (CreateEPContextNodes (n0 :: rest) buffer v models path true msz share stop st =
      .ok (⟨n0, EPCONTEXT_OP,
              (EP_CACHE_CONTEXT, AttrValue.str buffer) :: commonAttrs true v n0⟩
            :: rest.map (mkNonMainNode true v),
           [], st)) := by
  constructor
  · simp [GetEpContextFromMainNode, hop, hembed]
  · rw [createEPContextNodes_cons n0 rest buffer v models path true msz share stop st
      h0 hrest]
    simp

/-- Claim C9 witness: the embed-mode theorem at a concrete node and a concrete
one-partition writer invocation. -/
theorem c9_embed_mode_no_filesystem_witness :
    (GetEpContextFromMainNode c9Node "m.onnx" (fun _ => none) (fun _ => Status.ok) 3 =
      ⟨Status.ok, [], [("PAYLOAD", "n", 3)]⟩) ∧
    (CreateEPContextNodes ["g0"] "BLOB" "v" ["g0"] "p.onnx" true 5 false false "" =
      .ok (⟨"g0", EPCONTEXT_OP,
             (EP_CACHE_CONTEXT, AttrValue.str "BLOB") :: commonAttrs true "v" "g0"⟩ :: [],
           [], "")) :=
  c9_embed_mode_no_filesystem c9Node "m.onnx" (fun _ => none) (fun _ => Status.ok) 3
    "g0" [] "BLOB" "v" "p.onnx" "" ["g0"] 5 false false rfl rfl rfl
    (fun g hg => absurd hg (List.not_mem_nil g))

/-- Claim C8 (amended): the main node receives the caller-supplied sizing
attribute exactly in external (non-embed) mode; in embed mode it carries no
sizing attribute; non-main nodes never carry it in either mode. -/
theorem c8_amended (n0 : String) (rest : List String) (buffer v path st : String)
    (models : List String) (embed share stop : Bool) (m : Int)
    (h0 : models.contains n0 = true)
    (hrest : ∀ g ∈ rest, models.contains g = true) :
    ∃ nodes writes stA,
      CreateEPContextNodes (n0 :: rest) buffer v models path embed m share stop st =
        .ok (nodes, writes, stA) ∧
      (embed = false → findAttr (nodes.headD defNode) MAX_SIZE = some (.int m)) ∧
      (embed = true → findAttr (nodes.headD defNode) MAX_SIZE = none) ∧
      (∀ n ∈ nodes.tail, findAttr n MAX_SIZE = none) := by
  refine ⟨_, _, _,
    createEPContextNodes_cons n0 rest buffer v models path embed m share stop st h0 hrest,
    ?_, ?_, ?_⟩
  · intro he; subst he; exact rfl
  · intro he; subst he; exact rfl
  · intro n hn
    simp only [List.tail_cons, List.mem_map] at hn
    obtain ⟨g, _, rfl⟩ := hn
    exact rfl

/-- Claim C8 witness: the amended sizing-attribute theorem at a concrete
external-mode invocation over two partitions. -/
theorem c8_amended_witness :
    ∃ nodes writes stA,
      CreateEPContextNodes ["g0", "g1"] "BLOB" "v" ["g0", "g1"] "model.onnx" false 42
          false false "" = .ok (nodes, writes, stA) ∧
      (false = false → findAttr (nodes.headD defNode) MAX_SIZE = some (.int 42)) ∧
      (false = true → findAttr (nodes.headD defNode) MAX_SIZE = none) ∧
      (∀ n ∈ nodes.tail, findAttr n MAX_SIZE = none) :=
  c8_amended "g0" ["g1"] "BLOB" "v" "model.onnx" "" ["g0", "g1"] false false false 42
    (by decide) (by decide)

/-- Claim C4 (amended): for every non-empty external reference the load fails
with the absolute-path error when the reference starts with the root marker,
fails with the ".."-traversal error when the textual reference contains ".."
anywhere (no canonicalization), and otherwise consults exactly the file
obtained by joining the reference to the model file's directory; an empty
reference is rejected with the empty-path error before any resolution. -/
theorem c4_amended (node : Node) (ctxPath ref : String)
    (fs : String → Option String) (backend : String → Status) (m : Int)
    (hop : node.opType = EPCONTEXT_OP)
    (hembed : getBoolAttr node EMBED_MODE true = false)
    (href : getStrAttr node EP_CACHE_CONTEXT "" = ref) :
    (ref = "" →
      GetEpContextFromMainNode node ctxPath fs backend m =
        ⟨⟨.FAIL, "The file path in ep_cache_context should not be empty."⟩, [], []⟩) ∧
    (ref ≠ "" → ref.data.headD ' ' = '/' →
      GetEpContextFromMainNode node ctxPath fs backend m =
        ⟨⟨.FAIL, "External mode should set ep_cache_context field with a relative path, but it is an absolute path: "
            ++ ref⟩, [], []⟩) ∧
    (ref ≠ "" → ref.data.headD ' ' ≠ '/' → hasSub ['.', '.'] ref.data = true →
      GetEpContextFromMainNode node ctxPath fs backend m =
        ⟨⟨.INVALID_GRAPH, "The file path in ep_cache_context field has '..'. It's not allowed to point outside the directory."⟩,
          [], []⟩) ∧
    (ref ≠ "" → ref.data.headD ' ' ≠ '/' → hasSub ['.', '.'] ref.data = false →
      (GetEpContextFromMainNode node ctxPath fs backend m).fsEvents.headD (.readFile "") =
        .isRegularFile (pathAppend (parentPath ctxPath) ref)) := by
  refine ⟨?_, ?_, ?_, ?_⟩
  · intro h1
    simp [GetEpContextFromMainNode, hop, hembed, href, h1]
  · intro h1 h2
    have h2x : ref.data.head?.getD ' ' = '/' := by simpa using h2
    simp [GetEpContextFromMainNode, hop, hembed, href, h1, h2x]
  · intro h1 h2 h3
    have h2x : ¬ ref.data.head?.getD ' ' = '/' := by simpa using h2
    simp [GetEpContextFromMainNode, hop, hembed, href, h1, h2x, h3]
  · intro h1 h2 h3
    have h2x : ¬ ref.data.head?.getD ' ' = '/' := by simpa using h2
    simp only [GetEpContextFromMainNode, hop, hembed, href]
    simp only [beq_self_eq_true, not_true_eq_false, if_false, Bool.false_eq_true,
      ite_false, ite_true]
    rw [if_neg (by simp [h1]), if_neg (by simp [h2x]), if_neg (by simp [h3])]
    cases hfs : fs (pathAppend (parentPath ctxPath) ref) with
    | none => simp [hfs]
    | some contents =>
      by_cases hlen : contents.length = 0 <;> simp [hfs, hlen]

/-- Claim C4 witness: the path-validation theorem at the concrete reference
"model_part.bin" under model directory "base_dir". -/
theorem c4_amended_witness :
    (("model_part.bin" : String) = "" →
      GetEpContextFromMainNode c4NodeGood "base_dir/model.onnx" (fun _ => none)
          (fun _ => Status.ok) 0 =
        ⟨⟨.FAIL, "The file path in ep_cache_context should not be empty."⟩, [], []⟩) ∧
    (("model_part.bin" : String) ≠ "" → "model_part.bin".data.headD ' ' = '/' →
      GetEpContextFromMainNode c4NodeGood "base_dir/model.onnx" (fun _ => none)
          (fun _ => Status.ok) 0 =
        ⟨⟨.FAIL, "External mode should set ep_cache_context field with a relative path, but it is an absolute path: "
            ++ "model_part.bin"⟩, [], []⟩) ∧
    (("model_part.bin" : String) ≠ "" → "model_part.bin".data.headD ' ' ≠ '/' →
      hasSub ['.', '.'] "model_part.bin".data = true →
      GetEpContextFromMainNode c4NodeGood "base_dir/model.onnx" (fun _ => none)
          (fun _ => Status.ok) 0 =
        ⟨⟨.INVALID_GRAPH, "The file path in ep_cache_context field has '..'. It's not allowed to point outside the directory."⟩,
          [], []⟩) ∧
    (("model_part.bin" : String) ≠ "" → "model_part.bin".data.headD ' ' ≠ '/' →
      hasSub ['.', '.'] "model_part.bin".data = false →
      (GetEpContextFromMainNode c4NodeGood "base_dir/model.onnx" (fun _ => none)
          (fun _ => Status.ok) 0).fsEvents.headD (.readFile "") =
        .isRegularFile (pathAppend (parentPath "base_dir/model.onnx") "model_part.bin")) :=
  c4_amended c4NodeGood "base_dir/model.onnx" "model_part.bin" (fun _ => none)
    (fun _ => Status.ok) 0 rfl rfl rfl

/-- Claim C6: when the resolved external cache file exists with size zero, the
load fails with exactly the empty-file error, after the existence check and
the open but before any read of the file's contents and with no backend
call. -/
theorem c6_empty_file (node : Node) (ctxPath ref : String)
    (fs : String → Option String) (backend : String → Status) (m : Int)
    (hop : node.opType = EPCONTEXT_OP)
    (hembed : getBoolAttr node EMBED_MODE true = false)
    (href : getStrAttr node EP_CACHE_CONTEXT "" = ref)
    (h1 : ref ≠ "") (h2 : ref.data.headD ' ' ≠ '/')
    (h3 : hasSub ['.', '.'] ref.data = false)
    (hfs : fs (pathAppend (parentPath ctxPath) ref) = some "") :
    GetEpContextFromMainNode node ctxPath fs backend m =
      ⟨⟨.FAIL, "Empty cache file encountered."⟩,
       [.isRegularFile (pathAppend (parentPath ctxPath) ref),
        .openRead (pathAppend (parentPath ctxPath) ref)], []⟩ := by
  have h2x : ¬ ref.data.head?.getD ' ' = '/' := by simpa using h2
  simp [GetEpContextFromMainNode, hop, hembed, href, h1, h2x, h3, hfs]

/-- Claim C6 witness: the zero-length-file theorem at a concrete filesystem
holding an empty file at "base_dir/model_part.bin". -/
theorem c6_empty_file_witness :
    GetEpContextFromMainNode c4NodeGood "base_dir/model.onnx"
        (fun p => if p = "base_dir/model_part.bin" then some "" else none)
        (fun _ => Status.ok) 9 =
      ⟨⟨.FAIL, "Empty cache file encountered."⟩,
       [.isRegularFile (pathAppend (parentPath "base_dir/model.onnx") "model_part.bin"),
        .openRead (pathAppend (parentPath "base_dir/model.onnx") "model_part.bin")], []⟩ :=
  c6_empty_file c4NodeGood "base_dir/model.onnx" "model_part.bin"
    (fun p => if p = "base_dir/model_part.bin" then some "" else none)
    (fun _ => Status.ok) 9 rfl rfl rfl (by decide) (by decide) (by decide) (by decide)

/-- Claim C5 (amended): for a one-node filtered graph,
`LoadQnnCtxFromOnnxGraph` returns OK exactly when the underlying load
succeeds, and wraps every inner failure into the `INVALID_GRAPH`
classification with the protocol message; the one-node structural precheck
itself, however, fails with the generic `FAIL` code (see the
counterexample). -/
theorem c5_amended (graphNodes : List Node) (p : String)
    (fs : String → Option String) (backend : String → Status) (m : Int)
    (h1 : graphNodes.length = 1) :
    ((LoadQnnCtxFromOnnxGraph graphNodes p fs backend m).status.code = .OK ↔
      (GetEpContextFromMainNode (graphNodes.headD defNode) p fs backend m).status.isOK
        = true) ∧
    ((GetEpContextFromMainNode (graphNodes.headD defNode) p fs backend m).status.isOK
        = false →
      (LoadQnnCtxFromOnnxGraph graphNodes p fs backend m).status =
        ⟨.INVALID_GRAPH, "Failed to load from EpContext model. " ++
          (GetEpContextFromMainNode (graphNodes.headD defNode) p fs backend m).status.msg⟩) := by
  simp only [List.headD_eq_head?_getD]
  constructor
  · by_cases hok :
      (GetEpContextFromMainNode (graphNodes.head?.getD defNode) p fs backend m).status.isOK
        = true
    · simp [LoadQnnCtxFromOnnxGraph, h1, hok, Status.ok]
    · simp [LoadQnnCtxFromOnnxGraph, h1, hok]
  · intro hfail
    simp [LoadQnnCtxFromOnnxGraph, h1, hfail]

/-- Claim C5 witness: the wrapping theorem at a one-node graph whose backend
rejects the buffer, so the inner failure is wrapped as INVALID_GRAPH. -/
theorem c5_amended_witness :
    ((LoadQnnCtxFromOnnxGraph [c9Node] "m.onnx" (fun _ => none)
        (fun _ => ⟨.FAIL, "backend rejected"⟩) 0).status.code = .OK ↔
      (GetEpContextFromMainNode ([c9Node].headD defNode) "m.onnx" (fun _ => none)
        (fun _ => ⟨.FAIL, "backend rejected"⟩) 0).status.isOK = true) ∧
    ((GetEpContextFromMainNode ([c9Node].headD defNode) "m.onnx" (fun _ => none)
        (fun _ => ⟨.FAIL, "backend rejected"⟩) 0).status.isOK = false →
      (LoadQnnCtxFromOnnxGraph [c9Node] "m.onnx" (fun _ => none)
        (fun _ => ⟨.FAIL, "backend rejected"⟩) 0).status =
        ⟨.INVALID_GRAPH, "Failed to load from EpContext model. " ++
          (GetEpContextFromMainNode ([c9Node].headD defNode) "m.onnx" (fun _ => none)
            (fun _ => ⟨.FAIL, "backend rejected"⟩) 0).status.msg⟩) :=
  c5_amended [c9Node] "m.onnx" (fun _ => none) (fun _ => ⟨.FAIL, "backend rejected"⟩) 0
    (by decide)

/-- Scan-loop invariant of `TryGetMaxSpillFillSize`: over iteration indices
`s, s+1, ..., s+len-1` the loop returns the running maximum together with the
first iteration index at which it was strictly improved (or the incoming pair
when no entry exceeds the incoming maximum). -/
theorem spillScan_range' (graphs : List (List Node)) (posList : List Nat) :
    ∀ (len s : Nat) (c : Int) (k : Nat),
      (∀ i, s ≤ i → i < s + len → (graphs.getD (posList.getD i 0) []).length = 1) →
      ∃ m j, spillScan graphs posList (List.range' s len) c k = .ok (m, j) ∧
        c ≤ m ∧
        (∀ i, s ≤ i → i < s + len → sizeAt graphs posList i ≤ m) ∧
        ((m = c ∧ j = k) ∨
         (s ≤ j ∧ j < s + len ∧ sizeAt graphs posList j = m ∧ c < m ∧
           ∀ i, s ≤ i → i < j → sizeAt graphs posList i < m)) := by
  intro len
  induction len with
  | zero =>
    intro s c k hlen
    refine ⟨c, k, by simp [List.range', spillScan], le_refl c, ?_, Or.inl ⟨rfl, rfl⟩⟩
    intro i h1 h2
    exact absurd h2 (by omega)
  | succ n ih =>
    intro s c k hlen
    have hs : (graphs.getD (posList.getD s 0) []).length = 1 :=
      hlen s (le_refl s) (by omega)
    rw [List.range'_succ]
    by_cases hgt : sizeAt graphs posList s > c
    · obtain ⟨m, j, hok, hle, hall, hbr⟩ :=
        ih (s + 1) (sizeAt graphs posList s) s
          (fun i ha hb => hlen i (by omega) (by omega))
      refine ⟨m, j, ?_, le_of_lt (lt_of_lt_of_le hgt hle), ?_, ?_⟩
      · simp only [spillScan, hs, ne_eq, not_true_eq_false, if_false,
          if_pos hgt]
        exact hok
      · intro i h1 h2
        rcases Nat.eq_or_lt_of_le h1 with h1e | h1l
        · rw [← h1e]; exact hle
        · exact hall i h1l (by omega)
      · rcases hbr with ⟨hm, hj⟩ | ⟨hj1, hj2, hsz, hcm, hfo⟩
        · refine Or.inr ⟨by omega, by omega, ?_, by rw [hm]; exact hgt, ?_⟩
          · rw [hj, hm]
          · intro i h1 h2; rw [hj] at h2; exact absurd h2 (by omega)
        · refine Or.inr ⟨by omega, by omega, hsz, lt_trans hgt hcm, ?_⟩
          intro i h1 h2
          rcases Nat.eq_or_lt_of_le h1 with h1e | h1l
          · rw [← h1e]; exact hcm
          · exact hfo i h1l h2
    · push_neg at hgt
      obtain ⟨m, j, hok, hle, hall, hbr⟩ :=
        ih (s + 1) c k (fun i ha hb => hlen i (by omega) (by omega))
      refine ⟨m, j, ?_, hle, ?_, ?_⟩
      · simp only [spillScan, hs, ne_eq, not_true_eq_false, if_false,
          if_neg (not_lt_of_le hgt)]
        exact hok
      · intro i h1 h2
        rcases Nat.eq_or_lt_of_le h1 with h1e | h1l
        · rw [← h1e]; exact le_trans hgt hle
        · exact hall i h1l (by omega)
      · rcases hbr with ⟨hm, hj⟩ | ⟨hj1, hj2, hsz, hcm, hfo⟩
        · exact Or.inl ⟨hm, hj⟩
        · refine Or.inr ⟨by omega, by omega, hsz, hcm, ?_⟩
          intro i h1 h2
          rcases Nat.eq_or_lt_of_le h1 with h1e | h1l
          · rw [← h1e]; exact lt_of_le_of_lt hgt hcm
          · exact hfo i h1l h2

/-- Claim C3 (amended): with nonnegative sizing values (0 when the attribute
is absent), `TryGetMaxSpillFillSize` selects the first index holding the
maximum value (index 0 when all values are 0, with no reorder) and swaps that
index with position 0 of the index list; entries at positions other than 0
and the selected index are unchanged, but the entry previously at position 0
moves to the selected index's position (a swap, not a stable move). -/
theorem c3_amended (graphs : List (List Node)) (total : Nat) (posList : List Nat)
    (htot : total ≤ posList.length)
    (hlen : ∀ i, i < total → (graphs.getD (posList.getD i 0) []).length = 1)
    (hnn : ∀ i, i < total → 0 ≤ sizeAt graphs posList i) :
    ∃ m j out, TryGetMaxSpillFillSize graphs total posList = .ok (m, out) ∧
      0 ≤ m ∧
      (∀ i, i < total → sizeAt graphs posList i ≤ m) ∧
      (0 < total → j < total ∧ sizeAt graphs posList j = m) ∧
      (∀ i, i < j → sizeAt graphs posList i < m) ∧
      (total = 0 → m = 0 ∧ j = 0) ∧
      out.length = posList.length ∧
      out.getD 0 0 = posList.getD j 0 ∧
      out.getD j 0 = posList.getD 0 0 ∧
      (∀ q, q ≠ 0 → q ≠ j → out.getD q 0 = posList.getD q 0) ∧
      (j = 0 → out = posList) := by
  obtain ⟨m, j, hok, hle, hall, hbr⟩ :=
    spillScan_range' graphs posList total 0 0 0
      (fun i _ hb => hlen i (by omega))
  have hall0 : ∀ i, i < total → sizeAt graphs posList i ≤ m :=
    fun i hi => hall i (Nat.zero_le i) (by omega)
  have hrange : List.range total = List.range' 0 total := List.range_eq_range' total
  by_cases hj0 : j = 0
  · subst hj0
    have hres : TryGetMaxSpillFillSize graphs total posList = .ok (m, posList) := by
      unfold TryGetMaxSpillFillSize
      rw [hrange, hok]
      simp
    have hm0 : 0 ≤ m := hle
    refine ⟨m, 0, posList, hres, hm0, hall0, ?_, ?_, ?_, rfl, rfl, rfl,
      fun q _ _ => rfl, fun _ => rfl⟩
    · intro htpos
      refine ⟨htpos, ?_⟩
      rcases hbr with ⟨hm, _⟩ | ⟨_, _, hsz, _, _⟩
      · subst hm
        exact le_antisymm (hall0 0 htpos) (hnn 0 htpos)
      · exact hsz
    · intro i hi; exact absurd hi (by omega)
    · intro htz
      rcases hbr with ⟨hm, _⟩ | ⟨_, hj2, _, _, _⟩
      · exact ⟨hm, rfl⟩
      · exact absurd hj2 (by omega)
  · have hj' : 0 ≤ j ∧ j < total ∧ sizeAt graphs posList j = m ∧ 0 < m ∧
        ∀ i, 0 ≤ i → i < j → sizeAt graphs posList i < m := by
      rcases hbr with ⟨_, hj⟩ | ⟨hj1, hj2, hsz, hcm, hfo⟩
      · exact absurd hj hj0
      · exact ⟨hj1, by omega, hsz, hcm, hfo⟩
    obtain ⟨_, hjt, hsz, hmpos, hfo⟩ := hj'
    have hjlen : j < posList.length := by omega
    have hlenpos : 0 < posList.length := by omega
    refine ⟨m, j,
      (posList.set 0 (posList.getD j 0)).set j (posList.getD 0 0), ?_, le_of_lt hmpos,
      hall0, fun _ => ⟨hjt, hsz⟩, fun i hi => hfo i (Nat.zero_le i) hi,
      fun htz => absurd hjt (by omega), ?_, ?_, ?_, ?_, fun hj => absurd hj hj0⟩
    · unfold TryGetMaxSpillFillSize
      rw [hrange, hok]
      simp [hj0]
    · simp
    · rw [List.getD_eq_getElem?_getD, List.getElem?_set_ne hj0,
        List.getElem?_set_self (by omega), Option.getD_some]
    · rw [List.getD_eq_getElem?_getD, List.getElem?_set_self (by simpa using hjlen),
        Option.getD_some]
    · intro q hq0 hqj
      rw [List.getD_eq_getElem?_getD, List.getElem?_set_ne (fun h => hqj h.symm),
        List.getElem?_set_ne (fun h => hq0 h.symm), ← List.getD_eq_getElem?_getD]

/-- Claim C3 witness: the amended theorem at sizing values `[5, 20, 3]` over
positions `[0, 1, 2]` (the spec's worked example, where the swap coincides
with the claimed reorder). -/
theorem c3_amended_witness :
    ∃ m j out, TryGetMaxSpillFillSize c3GraphsB 3 [0, 1, 2] = .ok (m, out) ∧
      0 ≤ m ∧
      (∀ i, i < 3 → sizeAt c3GraphsB [0, 1, 2] i ≤ m) ∧
      (0 < 3 → j < 3 ∧ sizeAt c3GraphsB [0, 1, 2] j = m) ∧
      (∀ i, i < j → sizeAt c3GraphsB [0, 1, 2] i < m) ∧
      (3 = 0 → m = 0 ∧ j = 0) ∧
      out.length = ([0, 1, 2] : List Nat).length ∧
      out.getD 0 0 = ([0, 1, 2] : List Nat).getD j 0 ∧
      out.getD j 0 = ([0, 1, 2] : List Nat).getD 0 0 ∧
      (∀ q, q ≠ 0 → q ≠ j → out.getD q 0 = ([0, 1, 2] : List Nat).getD q 0) ∧
      (j = 0 → out = [0, 1, 2]) :=
  c3_amended c3GraphsB 3 [0, 1, 2] (by decide) (by decide) (by decide)

/-- Steady state of a sharing session: once a non-empty shared name is
recorded, every further non-final invocation stamps that same name and writes
nothing, and the final invocation stamps it, performs the one physical write
of its buffer, and clears the state. -/
theorem runShareSession_steady (lastInv : SessionIn) (lname : String) (lrest : List String)
    (hlnames : lastInv.names = lname :: lrest)
    (hlmodels : ∀ g ∈ lastInv.names, lastInv.qnnModels.contains g = true)
    (hlstop : lastInv.stop = true) :
    ∀ (initInvs : List SessionIn) (st : String), st ≠ "" →
      (∀ inv ∈ initInvs, inv.stop = false ∧ inv.names ≠ [] ∧
        ∀ g ∈ inv.names, inv.qnnModels.contains g = true) →
      ∃ outs, runShareSession st (initInvs ++ [lastInv]) = .ok (outs, "") ∧
        outs.length = initInvs.length + 1 ∧
        (∀ out ∈ outs, getStrAttr (out.1.headD defNode) EP_CACHE_CONTEXT "" = st) ∧
        (∀ k, k < initInvs.length → (outs.getD k ([], [])).2 = []) ∧
        (outs.getD initInvs.length ([], [])).2.map Prod.snd = [lastInv.buffer] := by
  intro initInvs
  induction initInvs with
  | nil =>
    intro st hst _
    rw [hlnames] at hlmodels
    have h0 : lastInv.qnnModels.contains lname = true := hlmodels lname (by simp)
    have hrest : ∀ g ∈ lrest, lastInv.qnnModels.contains g = true :=
      fun g hg => hlmodels g (by simp [hg])
    refine ⟨[(⟨lname, EPCONTEXT_OP,
        [(EP_CACHE_CONTEXT, .str st), (MAX_SIZE, .int lastInv.maxSpill)] ++
          commonAttrs false lastInv.sdkVer lname⟩ ::
        lrest.map (mkNonMainNode false lastInv.sdkVer),
      [(parentPath (computeContextBinPath lastInv.ctxModelPath lname) ++ "/" ++ st,
        lastInv.buffer)])], ?_, rfl, ?_, ?_, ?_⟩
    · simp only [List.nil_append, runShareSession, hlnames]
      rw [createEPContextNodes_cons lname lrest lastInv.buffer lastInv.sdkVer
        lastInv.qnnModels lastInv.ctxModelPath false lastInv.maxSpill true lastInv.stop st
        h0 hrest]
      rw [emitMainExternal_share_existing lastInv.buffer lastInv.ctxModelPath lname st
        lastInv.maxSpill lastInv.stop hst]
      simp [hlstop, runShareSession]
    · intro out hout
      simp at hout
      rw [hout]
      exact rfl
    · intro k hk; simp at hk
    · simp
  | cons inv0 invs ih =>
    intro st hst hinit
    obtain ⟨hstop0, hnn0, hmod0⟩ := hinit inv0 (by simp)
    have hinit' : ∀ inv ∈ invs, inv.stop = false ∧ inv.names ≠ [] ∧
        ∀ g ∈ inv.names, inv.qnnModels.contains g = true :=
      fun inv hinv => hinit inv (by simp [hinv])
    obtain ⟨outs, hrun, hlen, hname, hwr, hlast⟩ := ih st hst hinit'
    cases hns : inv0.names with
    | nil => exact absurd hns hnn0
    | cons n0 r0 =>
      rw [hns] at hmod0
      have h00 : inv0.qnnModels.contains n0 = true := hmod0 n0 (by simp)
      have h0r : ∀ g ∈ r0, inv0.qnnModels.contains g = true :=
        fun g hg => hmod0 g (by simp [hg])
      refine ⟨(⟨n0, EPCONTEXT_OP,
          [(EP_CACHE_CONTEXT, .str st), (MAX_SIZE, .int inv0.maxSpill)] ++
            commonAttrs false inv0.sdkVer n0⟩ ::
          r0.map (mkNonMainNode false inv0.sdkVer), []) :: outs, ?_, by simp [hlen], ?_, ?_, ?_⟩
      · simp only [List.cons_append, runShareSession, hns]
        rw [createEPContextNodes_cons n0 r0 inv0.buffer inv0.sdkVer inv0.qnnModels
          inv0.ctxModelPath false inv0.maxSpill true inv0.stop st h00 h0r]
        rw [emitMainExternal_share_existing inv0.buffer inv0.ctxModelPath n0 st
          inv0.maxSpill inv0.stop hst]
        simp only [hstop0, if_false, ite_false, Bool.false_eq_true, List.append_eq]
        rw [hrun]
        rfl
      · intro out hout
        rcases List.mem_cons.mp hout with hout | hout
        · rw [hout]
          exact rfl
        · exact hname out hout
      · intro k hk
        cases k with
        | zero => rfl
        | succ k' => exact hwr k' (by simpa using hk)
      · simpa using hlast

/-- Claim C7: in a sharing session (sharing enabled throughout, external
mode), only the final invocation (`stop_share_ep_contexts = true`) performs
the physical write (its write events carry exactly the final buffer, earlier
invocations write nothing), every invocation's main node references the
identical cache file name computed and recorded by the first invocation, and
the shared-name state is cleared ("" after the run). -/
theorem c7_sharing_session (initInvs : List SessionIn) (lastInv : SessionIn)
    (hnames : ∀ inv ∈ initInvs ++ [lastInv], inv.names ≠ [] ∧
      ∀ g ∈ inv.names, inv.qnnModels.contains g = true)
    (hstops : ∀ inv ∈ initInvs, inv.stop = false)
    (hlstop : lastInv.stop = true) :
    ∃ outs,
      runShareSession "" (initInvs ++ [lastInv]) = .ok (outs, "") ∧
      outs.length = initInvs.length + 1 ∧
      (∀ out ∈ outs, getStrAttr (out.1.headD defNode) EP_CACHE_CONTEXT "" =
        computeContextCacheName ((initInvs ++ [lastInv]).headD lastInv).ctxModelPath
          (((initInvs ++ [lastInv]).headD lastInv).names.headD "")) ∧
      (∀ k, k < initInvs.length → (outs.getD k ([], [])).2 = []) ∧
      (outs.getD initInvs.length ([], [])).2.map Prod.snd = [lastInv.buffer] := by
  obtain ⟨hlnn, hlmodels⟩ := hnames lastInv (by simp)
  cases hlns : lastInv.names with
  | nil => exact absurd hlns hlnn
  | cons ln lr =>
  cases initInvs with
  | nil =>
    rw [hlns] at hlmodels
    have h00 : lastInv.qnnModels.contains ln = true := hlmodels ln (by simp)
    have h0r : ∀ g ∈ lr, lastInv.qnnModels.contains g = true :=
      fun g hg => hlmodels g (by simp [hg])
    refine ⟨[(⟨ln, EPCONTEXT_OP,
        [(EP_CACHE_CONTEXT, .str (computeContextCacheName lastInv.ctxModelPath ln)),
         (MAX_SIZE, .int lastInv.maxSpill)] ++ commonAttrs false lastInv.sdkVer ln⟩ ::
        lr.map (mkNonMainNode false lastInv.sdkVer),
      [(computeContextBinPath lastInv.ctxModelPath ln, lastInv.buffer)])],
      ?_, rfl, ?_, ?_, ?_⟩
    · simp only [List.nil_append, runShareSession, hlns]
      rw [createEPContextNodes_cons ln lr lastInv.buffer lastInv.sdkVer
        lastInv.qnnModels lastInv.ctxModelPath false lastInv.maxSpill true lastInv.stop ""
        h00 h0r]
      rw [emitMainExternal_share_fresh lastInv.buffer lastInv.ctxModelPath ln
        lastInv.maxSpill lastInv.stop]
      simp [hlstop, runShareSession]
    · intro out hout
      simp only [List.mem_singleton] at hout
      rw [hout]
      simp only [List.nil_append, List.headD_cons, hlns]
      exact rfl
    · intro k hk; simp at hk
    · simp
  | cons inv0 invs =>
    obtain ⟨hnn0, hmod0⟩ := hnames inv0 (by simp)
    cases hns : inv0.names with
    | nil => exact absurd hns hnn0
    | cons n0 r0 =>
      rw [hns] at hmod0
      have h00 : inv0.qnnModels.contains n0 = true := hmod0 n0 (by simp)
      have h0r : ∀ g ∈ r0, inv0.qnnModels.contains g = true :=
        fun g hg => hmod0 g (by simp [hg])
      have hstop0 : inv0.stop = false := hstops inv0 (by simp)
      have hfresh : computeContextCacheName inv0.ctxModelPath n0 ≠ "" :=
        computeContextCacheName_ne_empty _ _
      obtain ⟨outs, hrun, hlen, hname, hwr, hlast⟩ :=
        runShareSession_steady lastInv ln lr hlns hlmodels hlstop invs
          (computeContextCacheName inv0.ctxModelPath n0) hfresh
          (fun inv hinv =>
            ⟨hstops inv (by simp [hinv]),
             (hnames inv (by simp [hinv])).1,
             (hnames inv (by simp [hinv])).2⟩)
      refine ⟨(⟨n0, EPCONTEXT_OP,
          [(EP_CACHE_CONTEXT, .str (computeContextCacheName inv0.ctxModelPath n0)),
           (MAX_SIZE, .int inv0.maxSpill)] ++ commonAttrs false inv0.sdkVer n0⟩ ::
          r0.map (mkNonMainNode false inv0.sdkVer), []) :: outs,
        ?_, by simp [hlen], ?_, ?_, ?_⟩
      · simp only [List.cons_append, runShareSession, hns]
        rw [createEPContextNodes_cons n0 r0 inv0.buffer inv0.sdkVer inv0.qnnModels
          inv0.ctxModelPath false inv0.maxSpill true inv0.stop "" h00 h0r]
        rw [emitMainExternal_share_fresh inv0.buffer inv0.ctxModelPath n0
          inv0.maxSpill inv0.stop]
        simp only [hstop0, if_false, ite_false, Bool.false_eq_true, List.append_eq]
        rw [hrun]
        rfl
      · intro out hout
        simp only [List.cons_append, List.headD_cons, hns]
        rcases List.mem_cons.mp hout with hout | hout
        · rw [hout]
          exact rfl
        · exact hname out hout
      · intro k hk
        cases k with
        | zero => rfl
        | succ k' => exact hwr k' (by simpa using hk)
      · simpa using hlast

/-- Claim C7 witness: a concrete three-invocation sharing session. -/
theorem c7_sharing_session_witness :
    ∃ outs,
      runShareSession "" ([c7Inv1, c7Inv2] ++ [c7Inv3]) = .ok (outs, "") ∧
      outs.length = [c7Inv1, c7Inv2].length + 1 ∧
      (∀ out ∈ outs, getStrAttr (out.1.headD defNode) EP_CACHE_CONTEXT "" =
        computeContextCacheName
          (([c7Inv1, c7Inv2] ++ [c7Inv3]).headD c7Inv3).ctxModelPath
          ((([c7Inv1, c7Inv2] ++ [c7Inv3]).headD c7Inv3).names.headD "")) ∧
      (∀ k, k < [c7Inv1, c7Inv2].length → (outs.getD k ([], [])).2 = []) ∧
      (outs.getD [c7Inv1, c7Inv2].length ([], [])).2.map Prod.snd = [c7Inv3.buffer] :=
  c7_sharing_session [c7Inv1, c7Inv2] c7Inv3 (by decide) (by decide) rfl

end OnnxCtx
